import Mathlib

/-!
Shallow embedding of the miflora BLE protocol client (src/lib/src/lib.rs).

Bytes are modelled as `Fin 256` (Rust `u8`), byte buffers as `List Byte`
(Rust `Vec<u8>`), and `u64` arithmetic as `Nat` arithmetic with explicit
wraparound modulo `2 ^ 64` where the source performs `u64` operations.
Rust indexing (`v[i]`, which panics out of bounds) is modelled by `Option`
returning accessors built on `List.get?`: a `none` result marks exactly the
inputs on which the source panics.

The asynchronous transport (bluer `Device` / `Characteristic`) is modelled
as an oracle (`Transport`) giving the outcome of each resolution, read,
write, connect and clock call; protocol functions thread an explicit event
trace so that claims about which characteristics are accessed, and how
often, are statable.
-/

abbrev Byte := Fin 256

/-- Little-endian 16-bit value from two bytes (Rust u16::from_le_bytes). -/
def le16 (b0 b1 : Byte) : Nat := b0.val + 2 ^ 8 * b1.val

/-- Little-endian 32-bit value from four bytes (Rust u32::from_le_bytes). -/
def le32 (b0 b1 b2 b3 : Byte) : Nat :=
  b0.val + 2 ^ 8 * b1.val + 2 ^ 16 * b2.val + 2 ^ 24 * b3.val

/-- Opaque underlying transport error (bluer::Error), identified by a code. -/
structure BluerError where
  code : Nat
deriving DecidableEq, Repr

/-- The Error enum of lib.rs (addresses abstracted to Nat). -/
inductive Error where
  | DeviceNotFound (address : Nat) (cause : BluerError)
  | ServiceNotFound (service_id : Nat) (cause : BluerError)
  | CharacteristicNotFound (characteristic_id : Nat) (service_id : Nat) (cause : BluerError)
  | UnableToRead (characteristic_id : Nat) (service_id : Nat) (cause : BluerError)
  | UnableToWrite (characteristic_id : Nat) (service_id : Nat) (cause : BluerError)
  | InvalidWrittenValue (characteristic_id : Nat) (service_id : Nat)
  | CommandFailed (cause : BluerError)
  | TooManyRetries (retries : Nat) (cause : BluerError)
  | NoServiceData
  | DeviceNotSupported
deriving DecidableEq, Repr

/-- System payload wrapper (struct System { inner: Vec<u8> }). -/
structure System where
  inner : List Byte
deriving DecidableEq, Repr

/-- From<Vec<u8>> for System: constructs unconditionally, no length check. -/
def System.fromBytes (inner : List Byte) : System := ⟨inner⟩

/-- System::battery reads self.inner[0]; none models the out-of-bounds panic. -/
def System.battery? (s : System) : Option Nat :=
  match s.inner.get? 0 with
  | some b => some b.val
  | none => none

/-- System::firmware takes the slice self.inner[2..]; none models the
out-of-range slice panic when the buffer has fewer than 2 bytes. -/
def System.firmware? (s : System) : Option (List Byte) :=
  if 2 ≤ s.inner.length then some (s.inner.drop 2) else none

/-- RealtimeEntry payload wrapper (struct RealtimeEntry { inner: Vec<u8> }). -/
structure RealtimeEntry where
  inner : List Byte
deriving DecidableEq, Repr

/-- From<Vec<u8>> for RealtimeEntry: constructs unconditionally. -/
def RealtimeEntry.fromBytes (inner : List Byte) : RealtimeEntry := ⟨inner⟩

/-- RealtimeEntry::temperature = u16 from bytes 0-1. -/
def RealtimeEntry.temperature? (r : RealtimeEntry) : Option Nat :=
  match r.inner.get? 0, r.inner.get? 1 with
  | some a, some b => some (le16 a b)
  | _, _ => none

/-- RealtimeEntry::brightness = u32 from bytes 3-6. -/
def RealtimeEntry.brightness? (r : RealtimeEntry) : Option Nat :=
  match r.inner.get? 3, r.inner.get? 4, r.inner.get? 5, r.inner.get? 6 with
  | some a, some b, some c, some d => some (le32 a b c d)
  | _, _, _, _ => none

/-- RealtimeEntry::moisture = byte 7. -/
def RealtimeEntry.moisture? (r : RealtimeEntry) : Option Nat :=
  match r.inner.get? 7 with
  | some b => some b.val
  | none => none

/-- RealtimeEntry::conductivity = u16 from bytes 8-9. -/
def RealtimeEntry.conductivity? (r : RealtimeEntry) : Option Nat :=
  match r.inner.get? 8, r.inner.get? 9 with
  | some a, some b => some (le16 a b)
  | _, _ => none

/-- HistoricalEntry: an epoch time (u64, kept < 2^64) plus the raw payload. -/
structure HistoricalEntry where
  epoch_time : Nat
  inner : List Byte
deriving DecidableEq, Repr

/-- HistoricalEntry::new(inner, epoch_time): constructs unconditionally. -/
def HistoricalEntry.new (inner : List Byte) (epoch_time : Nat) : HistoricalEntry :=
  ⟨epoch_time, inner⟩

/-- HistoricalEntry::timestamp = self.epoch_time + (u32 from bytes 0-3),
a u64 addition, modelled with wraparound modulo 2^64. -/
def HistoricalEntry.timestamp? (h : HistoricalEntry) : Option Nat :=
  match h.inner.get? 0, h.inner.get? 1, h.inner.get? 2, h.inner.get? 3 with
  | some a, some b, some c, some d =>
      some ((h.epoch_time + le32 a b c d) % 2 ^ 64)
  | _, _, _, _ => none

/-- HistoricalEntry::temperature = u16 from bytes 4-5. -/
def HistoricalEntry.temperature? (h : HistoricalEntry) : Option Nat :=
  match h.inner.get? 4, h.inner.get? 5 with
  | some a, some b => some (le16 a b)
  | _, _ => none

/-- HistoricalEntry::brightness = u32 from bytes 7,8,9 and a zero high byte. -/
def HistoricalEntry.brightness? (h : HistoricalEntry) : Option Nat :=
  match h.inner.get? 7, h.inner.get? 8, h.inner.get? 9 with
  | some a, some b, some c => some (le32 a b c 0)
  | _, _, _ => none

/-- HistoricalEntry::moisture = byte 11. -/
def HistoricalEntry.moisture? (h : HistoricalEntry) : Option Nat :=
  match h.inner.get? 11 with
  | some b => some b.val
  | none => none

/-- HistoricalEntry::conductivity = u16 from bytes 12-13. -/
def HistoricalEntry.conductivity? (h : HistoricalEntry) : Option Nat :=
  match h.inner.get? 12, h.inner.get? 13 with
  | some a, some b => some (le16 a b)
  | _, _ => none

/-! ## Transport model -/

/-- One observable transport interaction. Characteristic resolution is not
an event: the claims count reads, writes and connect attempts. -/
inductive Event where
  | readEv (service_id : Nat) (characteristic_id : Nat)
  | writeEv (service_id : Nat) (characteristic_id : Nat) (payload : List Byte)
  | connectEv
  | isConnectedEv
  | nowEv
deriving DecidableEq, Repr

abbrev Trace := List Event

def isReadOf (s c : Nat) : Event → Bool
  | .readEv s2 c2 => s2 == s && c2 == c
  | _ => false

def isWriteOf (s c : Nat) : Event → Bool
  | .writeEv s2 c2 _ => s2 == s && c2 == c
  | _ => false

def isConnect : Event → Bool
  | .connectEv => true
  | _ => false

def isNow : Event → Bool
  | .nowEv => true
  | _ => false

def countReads (tr : Trace) (s c : Nat) : Nat := tr.countP (isReadOf s c)

def countWrites (tr : Trace) (s c : Nat) : Nat := tr.countP (isWriteOf s c)

def countConnects (tr : Trace) : Nat := tr.countP isConnect

def countNows (tr : Trace) : Nat := tr.countP isNow

def isConnCheck : Event → Bool
  | .isConnectedEv => true
  | _ => false

def countIsConnected (tr : Trace) : Nat := tr.countP isConnCheck

/-- Oracle fixing the outcome of every transport interaction. Reads and
writes are indexed by (service, characteristic, how many prior reads/writes
hit that same characteristic); connect, is_connected and wall-clock calls
by how many such calls happened before. -/
structure Transport where
  serviceRes : Nat → Except BluerError Unit
  charRes : Nat → Nat → Except BluerError Unit
  readRes : Nat → Nat → Nat → Except BluerError (List Byte)
  writeRes : Nat → Nat → Nat → List Byte → Except BluerError Unit
  isConnectedRes : Nat → Except BluerError Bool
  connectRes : Nat → Except BluerError Unit
  nowRes : Nat → ℚ

/-- Result of a protocol call: ok, a typed Error, or a Rust panic
(out-of-bounds indexing into a transport-supplied buffer). -/
inductive Outcome (α : Type) where
  | ok (a : α)
  | err (e : Error)
  | panicked
deriving DecidableEq, Repr

/-! ## Fixed command payloads -/

def CMD_HISTORY_READ_INIT : List Byte := [0xa0, 0x00, 0x00]

def CMD_HISTORY_READ_SUCCESS : List Byte := [0xa2, 0x00, 0x00]

def CMD_REALTIME_DISABLE : List Byte := [0xc0, 0x1f]

def CMD_REALTIME_ENABLE : List Byte := [0xa0, 0x1f]

def byteOf (n : Nat) : Byte := ⟨n % 256, Nat.mod_lt n (by decide)⟩

/-- Miflora::historical_entry_address: [0xa1] ++ u16::to_le_bytes(index). -/
def historical_entry_address (index : Nat) : List Byte :=
  [0xa1, byteOf index, byteOf (index / 256)]

/-! ## Protocol functions over the transport oracle -/

/-- Miflora::characteristic: resolve the service then the characteristic,
wrapping the underlying failures in ServiceNotFound / CharacteristicNotFound. -/
def characteristic (t : Transport) (service_id char_id : Nat) : Except Error Unit :=
  match t.serviceRes service_id with
  | .error e => .error (.ServiceNotFound service_id e)
  | .ok _ =>
    match t.charRes service_id char_id with
    | .error e => .error (.CharacteristicNotFound char_id service_id e)
    | .ok _ => .ok ()

/-- Miflora::read: resolve then read, mapping failure to UnableToRead. -/
def mread (t : Transport) (s c : Nat) (tr : Trace) : Outcome (List Byte) × Trace :=
  match characteristic t s c with
  | .error e => (.err e, tr)
  | .ok _ =>
    match t.readRes s c (countReads tr s c) with
    | .error e => (.err (.UnableToRead c s e), tr ++ [.readEv s c])
    | .ok d => (.ok d, tr ++ [.readEv s c])

/-- Rust saturating cast from the (exact, rational-modelled) wall-clock
seconds to u64: truncate toward zero, clamp to [0, 2^64 - 1]. -/
def ratToU64 (q : ℚ) : Nat := min (Rat.floor q).toNat (2 ^ 64 - 1)

/-- Wrapping u64 subtraction (both arguments below 2^64). -/
def u64sub (a b : Nat) : Nat := (a + 2 ^ 64 - b) % 2 ^ 64

/-- Miflora::read_epoch_time. Note two facts of the source faithfully kept
here: a failure of this transport read is wrapped in Error::UnableToWrite
(lib.rs line 448), and the epoch arithmetic is
(midpoint wall time as u64) - (little-endian u32 of bytes 0-3). -/
def read_epoch_time (t : Transport) (tr : Trace) : Outcome Nat × Trace :=
  let start := t.nowRes (countNows tr)
  let tr1 := tr ++ [.nowEv]
  match characteristic t 58 64 with
  | .error e => (.err e, tr1)
  | .ok _ =>
    match t.readRes 58 64 (countReads tr1 58 64) with
    | .error e => (.err (.UnableToWrite 64 58 e), tr1 ++ [.readEv 58 64])
    | .ok data =>
      let tr2 := tr1 ++ [.readEv 58 64]
      let stop := t.nowRes (countNows tr2)
      let tr3 := tr2 ++ [.nowEv]
      match data.get? 0, data.get? 1, data.get? 2, data.get? 3 with
      | some a, some b, some c, some d =>
        let wall_time := (stop + start) / 2
        let epoch_offset := le32 a b c d
        (.ok (u64sub (ratToU64 wall_time) epoch_offset), tr3)
      | _, _, _, _ => (.panicked, tr3)

/-- Miflora::try_connect loop body. fuel only bounds the recursion; with
fuel = retry + 1 - count it never runs out (count strictly increases and
the loop exits as soon as count exceeds retry). -/
def tryConnectLoop (t : Transport) (retry : Nat) :
    Nat → Nat → Trace → Outcome Unit × Trace
  | 0, _, tr => (.panicked, tr)
  | fuel + 1, count, tr =>
    match t.isConnectedRes (countIsConnected tr) with
    | .error e => (.err (.CommandFailed e), tr ++ [.isConnectedEv])
    | .ok true => (.ok (), tr ++ [.isConnectedEv])
    | .ok false =>
      let tr1 := tr ++ [.isConnectedEv]
      match t.connectRes (countConnects tr1) with
      | .ok _ => (.ok (), tr1 ++ [.connectEv])
      | .error e =>
        let tr2 := tr1 ++ [.connectEv]
        let count1 := count + 1
        if retry < count1 then (.err (.TooManyRetries count1 e), tr2)
        else tryConnectLoop t retry fuel count1 tr2

/-- Miflora::try_connect. -/
def try_connect (t : Transport) (retry : Nat) (tr : Trace) : Outcome Unit × Trace :=
  tryConnectLoop t retry (retry + 1) 0 tr

/-- Miflora::set_device_mode: resolve (49,50), write the payload, read the
same characteristic back, fail with InvalidWrittenValue on any mismatch. -/
def set_device_mode (t : Transport) (payload : List Byte) (tr : Trace) :
    Outcome Unit × Trace :=
  match characteristic t 49 50 with
  | .error e => (.err e, tr)
  | .ok _ =>
    match t.writeRes 49 50 (countWrites tr 49 50) payload with
    | .error e => (.err (.UnableToWrite 50 49 e), tr ++ [.writeEv 49 50 payload])
    | .ok _ =>
      let tr1 := tr ++ [.writeEv 49 50 payload]
      match t.readRes 49 50 (countReads tr1 49 50) with
      | .error e => (.err (.UnableToRead 50 49 e), tr1 ++ [.readEv 49 50])
      | .ok data =>
        let tr2 := tr1 ++ [.readEv 49 50]
        if data = payload then (.ok (), tr2)
        else (.err (.InvalidWrittenValue 50 49), tr2)

/-- Miflora::clear_historical_entries: write the read-success command to
(58,61). The source wraps a failure of this write in Error::UnableToRead
(lib.rs line 549), kept faithfully here. -/
def clear_historical_entries (t : Transport) (tr : Trace) : Outcome Unit × Trace :=
  match characteristic t 58 61 with
  | .error e => (.err e, tr)
  | .ok _ =>
    match t.writeRes 58 61 (countWrites tr 58 61) CMD_HISTORY_READ_SUCCESS with
    | .error e =>
        (.err (.UnableToRead 61 58 e), tr ++ [.writeEv 58 61 CMD_HISTORY_READ_SUCCESS])
    | .ok _ => (.ok (), tr ++ [.writeEv 58 61 CMD_HISTORY_READ_SUCCESS])

/-- The per-entry loop of Miflora::read_historical_values: for each index
i from the current one up to total - 1, write the 3-byte address command to
(58,61) and read the entry payload from (58,59). -/
def readEntriesLoop (t : Transport) (epoch : Nat) (total : Nat) :
    Nat → List HistoricalEntry → Trace → Outcome (List HistoricalEntry) × Trace
  | i, acc, tr =>
    if _h : i < total then
      let payload := historical_entry_address i
      match t.writeRes 58 61 (countWrites tr 58 61) payload with
      | .error e => (.err (.UnableToWrite 61 58 e), tr ++ [.writeEv 58 61 payload])
      | .ok _ =>
        let tr1 := tr ++ [.writeEv 58 61 payload]
        match t.readRes 58 59 (countReads tr1 58 59) with
        | .error e => (.err (.UnableToRead 59 58 e), tr1 ++ [.readEv 58 59])
        | .ok data =>
          let tr2 := tr1 ++ [.readEv 58 59]
          readEntriesLoop t epoch total (i + 1) (acc ++ [HistoricalEntry.new data epoch]) tr2
    else (.ok acc, tr)
termination_by i _ _ => total - i

/-- Miflora::read_historical_values: init write to (58,61), length read
from (58,59), then (only when the length is positive) one epoch-time read
and the per-entry loop. -/
def read_historical_values (t : Transport) (tr : Trace) :
    Outcome (List HistoricalEntry) × Trace :=
  match characteristic t 58 61 with
  | .error e => (.err e, tr)
  | .ok _ =>
    match t.writeRes 58 61 (countWrites tr 58 61) CMD_HISTORY_READ_INIT with
    | .error e =>
        (.err (.UnableToWrite 61 58 e), tr ++ [.writeEv 58 61 CMD_HISTORY_READ_INIT])
    | .ok _ =>
      let tr1 := tr ++ [.writeEv 58 61 CMD_HISTORY_READ_INIT]
      match characteristic t 58 59 with
      | .error e => (.err e, tr1)
      | .ok _ =>
        match t.readRes 58 59 (countReads tr1 58 59) with
        | .error e => (.err (.UnableToRead 59 58 e), tr1 ++ [.readEv 58 59])
        | .ok raw =>
          let tr2 := tr1 ++ [.readEv 58 59]
          match raw.get? 0, raw.get? 1 with
          | some b0, some b1 =>
            let history_length := le16 b0 b1
            if 0 < history_length then
              match read_epoch_time t tr2 with
              | (.ok epoch, tr3) =>
                match characteristic t 58 59 with
                | .error e => (.err e, tr3)
                | .ok _ => readEntriesLoop t epoch history_length 0 [] tr3
              | (.err e, tr3) => (.err e, tr3)
              | (.panicked, tr3) => (.panicked, tr3)
            else (.ok [], tr2)
          | _, _ => (.panicked, tr2)

/-! ## Device identification -/

/-- A 128-bit UUID as a natural number below 2^128. -/
def uuidField1 (u : Nat) : Nat := u / 2 ^ 96 % 2 ^ 32

/-- The device-family constant 0xfe95 (a u32 in the source, compared
against the first field of Uuid::as_fields). -/
def DEVICE_UUID_TAG : Nat := 0xfe95

/-- is_miflora_device: the service_data query may fail (CommandFailed); an
absent map is NoServiceData; otherwise report whether any entry's UUID has
first as_fields component 0xfe95. -/
def is_miflora_device (sdRes : Except BluerError (Option (List (Nat × List Byte)))) :
    Except Error Bool :=
  match sdRes with
  | .error e => .error (.CommandFailed e)
  | .ok none => .error .NoServiceData
  | .ok (some sd) => .ok (sd.any (fun p => uuidField1 p.1 == DEVICE_UUID_TAG))

/-- Miflora::try_from_device: succeed exactly when is_miflora_device
returns true; a false verdict becomes DeviceNotSupported. -/
def try_from_device (sdRes : Except BluerError (Option (List (Nat × List Byte)))) :
    Except Error Unit :=
  match is_miflora_device sdRes with
  | .error e => .error e
  | .ok true => .ok ()
  | .ok false => .error .DeviceNotSupported

/-! ## Trace-count lemmas -/

theorem countReads_append (t1 t2 : Trace) (s c : Nat) :
    countReads (t1 ++ t2) s c = countReads t1 s c + countReads t2 s c :=
  List.countP_append _ _ _

theorem countWrites_append (t1 t2 : Trace) (s c : Nat) :
    countWrites (t1 ++ t2) s c = countWrites t1 s c + countWrites t2 s c :=
  List.countP_append _ _ _

theorem countConnects_append (t1 t2 : Trace) :
    countConnects (t1 ++ t2) = countConnects t1 + countConnects t2 :=
  List.countP_append _ _ _

theorem countNows_append (t1 t2 : Trace) :
    countNows (t1 ++ t2) = countNows t1 + countNows t2 :=
  List.countP_append _ _ _

theorem countIsConnected_append (t1 t2 : Trace) :
    countIsConnected (t1 ++ t2) = countIsConnected t1 + countIsConnected t2 :=
  List.countP_append _ _ _

theorem countReads_single (e : Event) (s c : Nat) :
    countReads [e] s c = if isReadOf s c e then 1 else 0 := by
  simp [countReads, List.countP_cons]

theorem countWrites_single (e : Event) (s c : Nat) :
    countWrites [e] s c = if isWriteOf s c e then 1 else 0 := by
  simp [countWrites, List.countP_cons]

theorem countConnects_single (e : Event) :
    countConnects [e] = if isConnect e then 1 else 0 := by
  simp [countConnects, List.countP_cons]

theorem countNows_single (e : Event) :
    countNows [e] = if isNow e then 1 else 0 := by
  simp [countNows, List.countP_cons]

theorem countIsConnected_single (e : Event) :
    countIsConnected [e] = if isConnCheck e then 1 else 0 := by
  simp [countIsConnected, List.countP_cons]

/-! ## List helper lemmas -/

theorem get?_isSome_len {α : Type} (l : List α) (n : Nat) :
    (l.get? n).isSome ↔ n < l.length := by
  rw [Option.isSome_iff_ne_none, Ne, List.get?_eq_none]
  omega

/-! ## C1: decoder length validation -/

/-- C1 (counterexample): the decoders perform no length validation.
Construction succeeds on buffers below the claimed minima (0 < 3 bytes for
System, 9 < 10 for RealtimeEntry, 13 < 14 for HistoricalEntry) and an
accessor of each constructed value indexes out of bounds (none = panic). -/
theorem decode_without_validation_cex :
    System.fromBytes [] = ⟨[]⟩
    ∧ (System.fromBytes []).battery? = none
    ∧ RealtimeEntry.fromBytes (List.replicate 9 0) = ⟨List.replicate 9 0⟩
    ∧ (RealtimeEntry.fromBytes (List.replicate 9 0)).conductivity? = none
    ∧ HistoricalEntry.new (List.replicate 13 0) 0 = ⟨0, List.replicate 13 0⟩
    ∧ (HistoricalEntry.new (List.replicate 13 0) 0).conductivity? = none := by
  refine ⟨rfl, rfl, rfl, ?_, rfl, ?_⟩ <;> decide

/-- C1 (amended): no decoder validates buffer length — System::from,
RealtimeEntry::from and HistoricalEntry::new construct unconditionally from
any buffer — and each accessor of a constructed value is in bounds (evaluates
without panicking) exactly when the buffer reaches that accessor's own
threshold: battery 1, firmware 2; realtime temperature 2, brightness 7,
moisture 8, conductivity 10; historical timestamp 4, temperature 6,
brightness 10, moisture 12, conductivity 14 bytes. -/
theorem decoders_total_accessors_iff (bs : List Byte) (epoch : Nat) :
    System.fromBytes bs = ⟨bs⟩
    ∧ RealtimeEntry.fromBytes bs = ⟨bs⟩
    ∧ HistoricalEntry.new bs epoch = ⟨epoch, bs⟩
    ∧ ((System.fromBytes bs).battery?.isSome ↔ 1 ≤ bs.length)
    ∧ ((System.fromBytes bs).firmware?.isSome ↔ 2 ≤ bs.length)
    ∧ ((RealtimeEntry.fromBytes bs).temperature?.isSome ↔ 2 ≤ bs.length)
    ∧ ((RealtimeEntry.fromBytes bs).brightness?.isSome ↔ 7 ≤ bs.length)
    ∧ ((RealtimeEntry.fromBytes bs).moisture?.isSome ↔ 8 ≤ bs.length)
    ∧ ((RealtimeEntry.fromBytes bs).conductivity?.isSome ↔ 10 ≤ bs.length)
    ∧ ((HistoricalEntry.new bs epoch).timestamp?.isSome ↔ 4 ≤ bs.length)
    ∧ ((HistoricalEntry.new bs epoch).temperature?.isSome ↔ 6 ≤ bs.length)
    ∧ ((HistoricalEntry.new bs epoch).brightness?.isSome ↔ 10 ≤ bs.length)
    ∧ ((HistoricalEntry.new bs epoch).moisture?.isSome ↔ 12 ≤ bs.length)
    ∧ ((HistoricalEntry.new bs epoch).conductivity?.isSome ↔ 14 ≤ bs.length) := by
  refine ⟨rfl, rfl, rfl, ?_, ?_, ?_, ?_, ?_, ?_, ?_, ?_, ?_, ?_, ?_⟩
  · simp only [System.fromBytes, System.battery?]
    rcases h0 : bs.get? 0 with _ | a <;>
      simp only [h0, Option.isSome_some, Option.isSome_none,
        Bool.false_eq_true, false_iff, true_iff] <;>
      first
        | (rw [List.get?_eq_none] at h0; omega)
        | (have hlen := (get?_isSome_len bs 0).mp (by rw [h0]; rfl); omega)
  · simp only [System.fromBytes, System.firmware?]
    by_cases h : 2 ≤ bs.length <;> simp [h]
  · simp only [RealtimeEntry.fromBytes, RealtimeEntry.temperature?]
    rcases h0 : bs.get? 0 with _ | a <;> rcases h1 : bs.get? 1 with _ | b <;>
      simp only [h0, h1, Option.isSome_some, Option.isSome_none,
        Bool.false_eq_true, false_iff, true_iff] <;>
      first
        | (rw [List.get?_eq_none] at h0; omega)
        | (rw [List.get?_eq_none] at h1; omega)
        | (have hlen := (get?_isSome_len bs 1).mp (by rw [h1]; rfl); omega)
  · simp only [RealtimeEntry.fromBytes, RealtimeEntry.brightness?]
    rcases h3 : bs.get? 3 with _ | a <;> rcases h4 : bs.get? 4 with _ | b <;>
      rcases h5 : bs.get? 5 with _ | c <;> rcases h6 : bs.get? 6 with _ | d <;>
      simp only [h3, h4, h5, h6, Option.isSome_some, Option.isSome_none,
        Bool.false_eq_true, false_iff, true_iff] <;>
      first
        | (rw [List.get?_eq_none] at h3; omega)
        | (rw [List.get?_eq_none] at h4; omega)
        | (rw [List.get?_eq_none] at h5; omega)
        | (rw [List.get?_eq_none] at h6; omega)
        | (have hlen := (get?_isSome_len bs 6).mp (by rw [h6]; rfl); omega)
  · simp only [RealtimeEntry.fromBytes, RealtimeEntry.moisture?]
    rcases h7 : bs.get? 7 with _ | a <;>
      simp only [h7, Option.isSome_some, Option.isSome_none,
        Bool.false_eq_true, false_iff, true_iff] <;>
      first
        | (rw [List.get?_eq_none] at h7; omega)
        | (have hlen := (get?_isSome_len bs 7).mp (by rw [h7]; rfl); omega)
  · simp only [RealtimeEntry.fromBytes, RealtimeEntry.conductivity?]
    rcases h8 : bs.get? 8 with _ | a <;> rcases h9 : bs.get? 9 with _ | b <;>
      simp only [h8, h9, Option.isSome_some, Option.isSome_none,
        Bool.false_eq_true, false_iff, true_iff] <;>
      first
        | (rw [List.get?_eq_none] at h8; omega)
        | (rw [List.get?_eq_none] at h9; omega)
        | (have hlen := (get?_isSome_len bs 9).mp (by rw [h9]; rfl); omega)
  · simp only [HistoricalEntry.new, HistoricalEntry.timestamp?]
    rcases h0 : bs.get? 0 with _ | a <;> rcases h1 : bs.get? 1 with _ | b <;>
      rcases h2 : bs.get? 2 with _ | c <;> rcases h3 : bs.get? 3 with _ | d <;>
      simp only [h0, h1, h2, h3, Option.isSome_some, Option.isSome_none,
        Bool.false_eq_true, false_iff, true_iff] <;>
      first
        | (rw [List.get?_eq_none] at h0; omega)
        | (rw [List.get?_eq_none] at h1; omega)
        | (rw [List.get?_eq_none] at h2; omega)
        | (rw [List.get?_eq_none] at h3; omega)
        | (have hlen := (get?_isSome_len bs 3).mp (by rw [h3]; rfl); omega)
  · simp only [HistoricalEntry.new, HistoricalEntry.temperature?]
    rcases h4 : bs.get? 4 with _ | a <;> rcases h5 : bs.get? 5 with _ | b <;>
      simp only [h4, h5, Option.isSome_some, Option.isSome_none,
        Bool.false_eq_true, false_iff, true_iff] <;>
      first
        | (rw [List.get?_eq_none] at h4; omega)
        | (rw [List.get?_eq_none] at h5; omega)
        | (have hlen := (get?_isSome_len bs 5).mp (by rw [h5]; rfl); omega)
  · simp only [HistoricalEntry.new, HistoricalEntry.brightness?]
    rcases h7 : bs.get? 7 with _ | a <;> rcases h8 : bs.get? 8 with _ | b <;>
      rcases h9 : bs.get? 9 with _ | c <;>
      simp only [h7, h8, h9, Option.isSome_some, Option.isSome_none,
        Bool.false_eq_true, false_iff, true_iff] <;>
      first
        | (rw [List.get?_eq_none] at h7; omega)
        | (rw [List.get?_eq_none] at h8; omega)
        | (rw [List.get?_eq_none] at h9; omega)
        | (have hlen := (get?_isSome_len bs 9).mp (by rw [h9]; rfl); omega)
  · simp only [HistoricalEntry.new, HistoricalEntry.moisture?]
    rcases h11 : bs.get? 11 with _ | a <;>
      simp only [h11, Option.isSome_some, Option.isSome_none,
        Bool.false_eq_true, false_iff, true_iff] <;>
      first
        | (rw [List.get?_eq_none] at h11; omega)
        | (have hlen := (get?_isSome_len bs 11).mp (by rw [h11]; rfl); omega)
  · simp only [HistoricalEntry.new, HistoricalEntry.conductivity?]
    rcases h12 : bs.get? 12 with _ | a <;> rcases h13 : bs.get? 13 with _ | b <;>
      simp only [h12, h13, Option.isSome_some, Option.isSome_none,
        Bool.false_eq_true, false_iff, true_iff] <;>
      first
        | (rw [List.get?_eq_none] at h12; omega)
        | (rw [List.get?_eq_none] at h13; omega)
        | (have hlen := (get?_isSome_len bs 13).mp (by rw [h13]; rfl); omega)

/-! ## C7: historical timestamp arithmetic -/

/-- C7 (counterexample): timestamp() is a u64 addition, so for
epoch_time = 2^64 - 1 and offset = u32::MAX the result wraps modulo 2^64
and does not equal the mathematical sum epoch_time + offset. -/
theorem historical_timestamp_wrap_cex :
    (HistoricalEntry.new [255, 255, 255, 255] (2 ^ 64 - 1)).timestamp?
      = some (2 ^ 32 - 2)
    ∧ 2 ^ 32 - 2 ≠ (2 ^ 64 - 1) + le32 255 255 255 255 := by
  exact ⟨by decide, by decide⟩

/-- C7 (amended): for a payload of at least 4 bytes, timestamp() equals
(epoch_time + offset) mod 2^64 with offset the little-endian u32 of bytes
0-3 — and therefore equals epoch_time + offset exactly whenever that sum
fits in u64 (in particular for offset = 0 and offset = u32::MAX once
epoch_time + offset < 2^64). -/
theorem historical_timestamp_le_offset (epoch : Nat) (b0 b1 b2 b3 : Byte)
    (rest : List Byte) :
    (HistoricalEntry.new (b0 :: b1 :: b2 :: b3 :: rest) epoch).timestamp?
      = some ((epoch + le32 b0 b1 b2 b3) % 2 ^ 64)
    ∧ (epoch + le32 b0 b1 b2 b3 < 2 ^ 64 →
        (HistoricalEntry.new (b0 :: b1 :: b2 :: b3 :: rest) epoch).timestamp?
          = some (epoch + le32 b0 b1 b2 b3)) := by
  constructor
  · rfl
  · intro h
    show some ((epoch + le32 b0 b1 b2 b3) % 2 ^ 64) = _
    rw [Nat.mod_eq_of_lt h]

/-- Closed instance of C7's theorem: epoch 10, offset 1 (sum in range),
and the modular form, via historical_timestamp_le_offset at that input. -/
theorem historical_timestamp_le_offset_witness :
    (HistoricalEntry.new [1, 0, 0, 0] 10).timestamp?
      = some ((10 + le32 1 0 0 0) % 2 ^ 64)
    ∧ (HistoricalEntry.new [1, 0, 0, 0] 10).timestamp?
      = some (10 + le32 1 0 0 0) := by
  have h := historical_timestamp_le_offset 10 1 0 0 0 []
  exact ⟨h.1, h.2 (by decide)⟩

/-! ## C3: device identification -/

/-- C3 (counterexample): a device whose service-data map is present but
empty fails with DeviceNotSupported, not with NoServiceData as claimed. -/
theorem try_from_device_empty_map_cex :
    try_from_device (.ok (some [])) = .error .DeviceNotSupported
    ∧ Error.DeviceNotSupported ≠ Error.NoServiceData := by
  exact ⟨rfl, by decide⟩

/-- C3 (amended): only an absent service-data map fails with NoServiceData;
a present map (the empty map included) with no entry whose UUID leading
32-bit field equals 0xFE95 fails with DeviceNotSupported; a map with a
matching entry makes try_from_device succeed. -/
theorem try_from_device_classification (sd : List (Nat × List Byte)) :
    try_from_device (.ok none) = .error .NoServiceData
    ∧ ((∀ p ∈ sd, uuidField1 p.1 ≠ DEVICE_UUID_TAG) →
        try_from_device (.ok (some sd)) = .error .DeviceNotSupported)
    ∧ ((∃ p ∈ sd, uuidField1 p.1 = DEVICE_UUID_TAG) →
        try_from_device (.ok (some sd)) = .ok ()) := by
  refine ⟨rfl, ?_, ?_⟩
  · intro h
    have hany : sd.any (fun p => uuidField1 p.1 == DEVICE_UUID_TAG) = false := by
      rw [List.any_eq_false]
      intro p hp
      simpa using h p hp
    simp [try_from_device, is_miflora_device, hany]
  · rintro ⟨p, hp, hq⟩
    have hany : sd.any (fun p => uuidField1 p.1 == DEVICE_UUID_TAG) = true := by
      rw [List.any_eq_true]
      exact ⟨p, hp, by simpa using hq⟩
    simp [try_from_device, is_miflora_device, hany]

/-- Closed instance of C3's amended theorem: absent map, non-matching
singleton map, and a map holding the 128-bit UUID whose leading field is
0xfe95, via try_from_device_classification. -/
theorem try_from_device_classification_witness :
    try_from_device (.ok none) = .error .NoServiceData
    ∧ try_from_device (.ok (some [(0, [])])) = .error .DeviceNotSupported
    ∧ try_from_device (.ok (some [(0xfe95 * 2 ^ 96, [])])) = .ok () := by
  refine ⟨(try_from_device_classification []).1, ?_, ?_⟩
  · refine (try_from_device_classification [(0, [])]).2.1 ?_
    intro p hp
    rw [List.mem_singleton] at hp
    rw [hp]
    decide
  · refine (try_from_device_classification [(0xfe95 * 2 ^ 96, [])]).2.2 ?_
    refine ⟨(0xfe95 * 2 ^ 96, []), List.mem_singleton.mpr rfl, ?_⟩
    decide

/-! ## C8: mode switch echo verification -/

/-- C8: assuming the mode characteristic (49,50) resolves and the write and
read-back both succeed at transport level, set_device_mode returns Ok
exactly when the echoed bytes equal the written payload, and any mismatch
yields InvalidWrittenValue with characteristic 50 and service 49. -/
theorem set_device_mode_echo_check (t : Transport) (payload data : List Byte)
    (tr : Trace)
    (hres : characteristic t 49 50 = .ok ())
    (hw : t.writeRes 49 50 (countWrites tr 49 50) payload = .ok ())
    (hr : t.readRes 49 50 (countReads (tr ++ [.writeEv 49 50 payload]) 49 50)
        = .ok data) :
    ((set_device_mode t payload tr).1 = .ok () ↔ data = payload)
    ∧ (data ≠ payload →
        (set_device_mode t payload tr).1 = .err (.InvalidWrittenValue 50 49)) := by
  unfold set_device_mode
  simp only [hres, hw, hr]
  by_cases h : data = payload <;> simp [h]

/-- Closed instance of C8's theorem: writing A0 1F (realtime enable) and
reading back C0 1F fails with InvalidWrittenValue{49, 50}, via
set_device_mode_echo_check on a transport echoing C0 1F. -/
def tEcho : Transport :=
  { serviceRes := fun _ => .ok ()
    charRes := fun _ _ => .ok ()
    readRes := fun _ _ _ => .ok CMD_REALTIME_DISABLE
    writeRes := fun _ _ _ _ => .ok ()
    isConnectedRes := fun _ => .ok false
    connectRes := fun _ => .ok ()
    nowRes := fun _ => 0 }

theorem set_device_mode_echo_check_witness :
    ¬ (set_device_mode tEcho CMD_REALTIME_ENABLE []).1 = .ok ()
    ∧ (set_device_mode tEcho CMD_REALTIME_ENABLE []).1
        = .err (.InvalidWrittenValue 50 49) := by
  have h := set_device_mode_echo_check tEcho CMD_REALTIME_ENABLE
    CMD_REALTIME_DISABLE [] rfl rfl rfl
  refine ⟨?_, h.2 (by decide)⟩
  intro hok
  exact absurd (h.1.mp hok) (by decide)

/-! ## C9: try_connect when already connected -/

/-- C9: when the is_connected check reports true, try_connect succeeds
immediately and performs zero transport connect calls, for every retry
budget and starting trace. -/
theorem try_connect_already_connected (t : Transport) (retry : Nat) (tr : Trace)
    (h : t.isConnectedRes (countIsConnected tr) = .ok true) :
    (try_connect t retry tr).1 = .ok ()
    ∧ countConnects (try_connect t retry tr).2 = countConnects tr := by
  unfold try_connect tryConnectLoop
  rw [h]
  refine ⟨rfl, ?_⟩
  simp [countConnects_append, countConnects_single, isConnect]

/-- Closed instance of C9's theorem on a transport that reports connected,
with retry budget 5, via try_connect_already_connected. -/
def tConnected : Transport :=
  { serviceRes := fun _ => .ok ()
    charRes := fun _ _ => .ok ()
    readRes := fun _ _ _ => .ok []
    writeRes := fun _ _ _ _ => .ok ()
    isConnectedRes := fun _ => .ok true
    connectRes := fun _ => .error ⟨0⟩
    nowRes := fun _ => 0 }

theorem try_connect_already_connected_witness :
    (try_connect tConnected 5 []).1 = .ok ()
    ∧ countConnects (try_connect tConnected 5 []).2 = countConnects [] := by
  exact try_connect_already_connected tConnected 5 [] rfl

/-! ## C2: error variants on history-protocol transport failures -/

/-- Transport on which every read and every write fails, with distinct
underlying causes, everything else succeeding. -/
def tIOFail : Transport :=
  { serviceRes := fun _ => .ok ()
    charRes := fun _ _ => .ok ()
    readRes := fun _ _ _ => .error ⟨7⟩
    writeRes := fun _ _ _ _ => .error ⟨9⟩
    isConnectedRes := fun _ => .ok false
    connectRes := fun _ => .ok ()
    nowRes := fun _ => 0 }

/-- C2: evaluating the code at the failing inputs. A failing transport read
of the epoch-time characteristic (58,64) in read_epoch_time surfaces
Error::UnableToWrite{64, 58} (lib.rs line 448), and a failing transport
write of the clear command to (58,61) in clear_historical_entries surfaces
Error::UnableToRead{61, 58} (lib.rs line 549) — each the opposite variant
of the operation that failed. -/
theorem history_error_variants_swapped :
    (read_epoch_time tIOFail []).1 = .err (.UnableToWrite 64 58 ⟨7⟩)
    ∧ (read_epoch_time tIOFail []).1 ≠ .err (.UnableToRead 64 58 ⟨7⟩)
    ∧ (clear_historical_entries tIOFail []).1 = .err (.UnableToRead 61 58 ⟨9⟩)
    ∧ (clear_historical_entries tIOFail []).1 ≠ .err (.UnableToWrite 61 58 ⟨9⟩) := by
  refine ⟨rfl, ?_, rfl, ?_⟩ <;> decide

/-! ## C6: try_connect exhausting its budget -/

/-- C6: with retry budget 2, a device never reporting connected and a
transport connect failing on every attempt (with per-attempt causes), the
call makes exactly 3 connect attempts and returns TooManyRetries carrying
attempt count 3 and the cause of the last (third) attempt. -/
theorem try_connect_exhausts_budget (t : Transport) (e0 e1 e2 : BluerError)
    (hic : ∀ k, t.isConnectedRes k = .ok false)
    (h0 : t.connectRes 0 = .error e0)
    (h1 : t.connectRes 1 = .error e1)
    (h2 : t.connectRes 2 = .error e2) :
    (try_connect t 2 []).1 = .err (.TooManyRetries 3 e2)
    ∧ countConnects (try_connect t 2 []).2 = 3 := by
  unfold try_connect
  simp [tryConnectLoop, hic, h0, h1, h2, countIsConnected, countConnects,
    isConnCheck, isConnect, List.countP_cons, List.countP_nil]

/-- Closed instance of C6's theorem: a transport whose connect always fails
with cause = attempt index, via try_connect_exhausts_budget. -/
def tNeverConnects : Transport :=
  { serviceRes := fun _ => .ok ()
    charRes := fun _ _ => .ok ()
    readRes := fun _ _ _ => .ok []
    writeRes := fun _ _ _ _ => .ok ()
    isConnectedRes := fun _ => .ok false
    connectRes := fun k => .error ⟨k⟩
    nowRes := fun _ => 0 }

theorem try_connect_exhausts_budget_witness :
    (try_connect tNeverConnects 2 []).1 = .err (.TooManyRetries 3 ⟨2⟩)
    ∧ countConnects (try_connect tNeverConnects 2 []).2 = 3 := by
  exact try_connect_exhausts_budget tNeverConnects ⟨0⟩ ⟨1⟩ ⟨2⟩
    (fun _ => rfl) rfl rfl rfl

/-! ## C5: zero history length -/

/-- C5: when the first two little-endian bytes of the history-length read
decode to 0, read_historical_values returns the empty sequence right after
the init write and the length read, and the epoch-time characteristic
(58,64) is not accessed: the read count on it is unchanged. -/
theorem read_historical_values_empty (t : Transport) (tr : Trace)
    (raw : List Byte) (b0 b1 : Byte)
    (hres61 : characteristic t 58 61 = .ok ())
    (hres59 : characteristic t 58 59 = .ok ())
    (hw : t.writeRes 58 61 (countWrites tr 58 61) CMD_HISTORY_READ_INIT = .ok ())
    (hr : t.readRes 58 59
        (countReads (tr ++ [.writeEv 58 61 CMD_HISTORY_READ_INIT]) 58 59)
        = .ok raw)
    (h0 : raw.get? 0 = some b0) (h1 : raw.get? 1 = some b1)
    (hzero : le16 b0 b1 = 0) :
    read_historical_values t tr
      = (.ok [], tr ++ [.writeEv 58 61 CMD_HISTORY_READ_INIT, .readEv 58 59])
    ∧ countReads (read_historical_values t tr).2 58 64 = countReads tr 58 64 := by
  have hmain : read_historical_values t tr
      = (.ok [], tr ++ [.writeEv 58 61 CMD_HISTORY_READ_INIT, .readEv 58 59]) := by
    unfold read_historical_values
    simp only [List.get?_eq_getElem?] at h0 h1
    simp [hres61, hres59, hw, hr, h0, h1, hzero]
  refine ⟨hmain, ?_⟩
  rw [hmain, countReads_append]
  have h2 : countReads [Event.writeEv 58 61 CMD_HISTORY_READ_INIT,
      Event.readEv 58 59] 58 64 = 0 := rfl
  omega

/-- Closed instance of C5's theorem: a transport whose history-length read
returns [0, 0], via read_historical_values_empty. -/
def tEmptyHist : Transport :=
  { serviceRes := fun _ => .ok ()
    charRes := fun _ _ => .ok ()
    readRes := fun _ _ _ => .ok [0, 0]
    writeRes := fun _ _ _ _ => .ok ()
    isConnectedRes := fun _ => .ok false
    connectRes := fun _ => .ok ()
    nowRes := fun _ => 0 }

theorem read_historical_values_empty_witness :
    read_historical_values tEmptyHist []
      = (.ok [], [.writeEv 58 61 CMD_HISTORY_READ_INIT, .readEv 58 59])
    ∧ countReads (read_historical_values tEmptyHist []).2 58 64
      = countReads ([] : Trace) 58 64 := by
  have h := read_historical_values_empty tEmptyHist [] [0, 0] 0 0
    rfl rfl rfl rfl rfl rfl rfl
  exact ⟨h.1, h.2⟩

/-! ## Shared success-path lemma for the epoch-time read -/

/-- On the success path, read_epoch_time returns the wrapping u64
difference between the saturating-cast midpoint of the two wall-clock
samples and the little-endian u32 of the first 4 bytes read from (58,64),
appending a clock sample, the epoch read and a second clock sample. -/
theorem read_epoch_time_spec (t : Transport) (tr : Trace) (data : List Byte)
    (c0 c1 c2 c3 : Byte)
    (hres : characteristic t 58 64 = .ok ())
    (hr : t.readRes 58 64 (countReads tr 58 64) = .ok data)
    (h0 : data.get? 0 = some c0) (h1 : data.get? 1 = some c1)
    (h2 : data.get? 2 = some c2) (h3 : data.get? 3 = some c3) :
    read_epoch_time t tr
      = (.ok (u64sub
            (ratToU64 ((t.nowRes (countNows tr + 1) + t.nowRes (countNows tr)) / 2))
            (le32 c0 c1 c2 c3)),
         tr ++ [.nowEv, .readEv 58 64, .nowEv]) := by
  unfold read_epoch_time
  simp only [List.get?_eq_getElem?] at h0 h1 h2 h3
  have hcr : countReads (tr ++ [Event.nowEv]) 58 64 = countReads tr 58 64 := by
    rw [countReads_append]
    rfl
  have hcn : countNows (tr ++ [Event.nowEv, Event.readEv 58 64])
      = countNows tr + 1 := by
    rw [countNows_append]
    rfl
  simp [hres, hcr, hr, h0, h1, h2, h3, hcn]

/-! ## C4: the paging protocol for a positive entry count -/

/-- Characterization of the entry loop on the all-success path: starting at
index j with j + m = N and one prior write to (58,61) per finished index
plus the init write (and likewise for reads of (58,59)), the loop appends
one (control-write, data-read) pair per index j, j+1, ..., N-1, in that
order, and returns the accumulated entries extended in index order. -/
theorem readEntriesLoop_ok (t : Transport) (E N : Nat) (d : Nat → List Byte)
    (HW : ∀ k, k < N →
      t.writeRes 58 61 (k + 1) (historical_entry_address k) = .ok ())
    (HR : ∀ k, k < N → t.readRes 58 59 (k + 1) = .ok (d k)) :
    ∀ m j acc tr, j + m = N →
      countWrites tr 58 61 = j + 1 → countReads tr 58 59 = j + 1 →
      readEntriesLoop t E N j acc tr
        = (.ok (acc ++ (List.range' j m).map (fun k => HistoricalEntry.new (d k) E)),
           tr ++ (List.range' j m).flatMap
             (fun k => [.writeEv 58 61 (historical_entry_address k), .readEv 58 59])) := by
  intro m
  induction m with
  | zero =>
    intro j acc tr hjm hcw hcr
    rw [readEntriesLoop, dif_neg (by omega : ¬ j < N)]
    simp
  | succ m ih =>
    intro j acc tr hjm hcw hcr
    have hj : j < N := by omega
    have hcr1 : countReads
        (tr ++ [Event.writeEv 58 61 (historical_entry_address j)]) 58 59
        = j + 1 := by
      rw [countReads_append, hcr]
      rfl
    have hcw2 : countWrites
        ((tr ++ [Event.writeEv 58 61 (historical_entry_address j)])
          ++ [Event.readEv 58 59]) 58 61 = (j + 1) + 1 := by
      rw [countWrites_append, countWrites_append, hcw]
      rfl
    have hcr2 : countReads
        ((tr ++ [Event.writeEv 58 61 (historical_entry_address j)])
          ++ [Event.readEv 58 59]) 58 59 = (j + 1) + 1 := by
      rw [countReads_append, hcr1]
      rfl
    rw [readEntriesLoop, dif_pos hj]
    simp only [hcw, HW j hj, hcr1, HR j hj]
    rw [ih (j + 1) (acc ++ [HistoricalEntry.new (d j) E])
      ((tr ++ [Event.writeEv 58 61 (historical_entry_address j)])
        ++ [Event.readEv 58 59]) (by omega) hcw2 hcr2]
    rw [List.range'_succ]
    simp [List.append_assoc]

/-- Abbreviation: the epoch value read_epoch_time computes when it is the
first clock user in a call (clock samples 0 and 1), reading boot-offset
bytes c0..c3. -/
def epochAtStart (t : Transport) (c0 c1 c2 c3 : Byte) : Nat :=
  u64sub (ratToU64 ((t.nowRes 1 + t.nowRes 0) / 2)) (le32 c0 c1 c2 c3)

/-- C4: for a history-length read decoding to N > 0, with every transport
interaction succeeding, read_historical_values performs the init write and
length read, exactly one epoch-time read (on (58,64)), then exactly N
(control-write of [0xa1, lo(i), hi(i)], data-read) round trips for
i = 0..N-1 in increasing order, and returns the N entries in index order,
every one carrying the single epoch value computed once in the call. -/
theorem read_historical_values_protocol (t : Transport) (N : Nat)
    (d : Nat → List Byte) (raw tdata : List Byte) (b0 b1 c0 c1 c2 c3 : Byte)
    (hres61 : characteristic t 58 61 = .ok ())
    (hres59 : characteristic t 58 59 = .ok ())
    (hres64 : characteristic t 58 64 = .ok ())
    (hw0 : t.writeRes 58 61 0 CMD_HISTORY_READ_INIT = .ok ())
    (hr0 : t.readRes 58 59 0 = .ok raw)
    (hb0 : raw.get? 0 = some b0) (hb1 : raw.get? 1 = some b1)
    (hN : le16 b0 b1 = N) (hpos : 0 < N)
    (hrt : t.readRes 58 64 0 = .ok tdata)
    (hc0 : tdata.get? 0 = some c0) (hc1 : tdata.get? 1 = some c1)
    (hc2 : tdata.get? 2 = some c2) (hc3 : tdata.get? 3 = some c3)
    (HW : ∀ k, k < N →
      t.writeRes 58 61 (k + 1) (historical_entry_address k) = .ok ())
    (HR : ∀ k, k < N → t.readRes 58 59 (k + 1) = .ok (d k)) :
    read_historical_values t []
      = (.ok ((List.range' 0 N).map
            (fun k => HistoricalEntry.new (d k) (epochAtStart t c0 c1 c2 c3))),
         [Event.writeEv 58 61 CMD_HISTORY_READ_INIT, Event.readEv 58 59,
          Event.nowEv, Event.readEv 58 64, Event.nowEv]
           ++ (List.range' 0 N).flatMap
             (fun k => [.writeEv 58 61 (historical_entry_address k), .readEv 58 59]))
    ∧ countReads (read_historical_values t []).2 58 64 = 1
    ∧ ((List.range' 0 N).map
        (fun k => HistoricalEntry.new (d k) (epochAtStart t c0 c1 c2 c3))).length = N
    ∧ ∀ h ∈ (List.range' 0 N).map
        (fun k => HistoricalEntry.new (d k) (epochAtStart t c0 c1 c2 c3)),
        h.epoch_time = epochAtStart t c0 c1 c2 c3 := by
  have hepoch := read_epoch_time_spec t
    [Event.writeEv 58 61 CMD_HISTORY_READ_INIT, Event.readEv 58 59]
    tdata c0 c1 c2 c3 hres64 hrt hc0 hc1 hc2 hc3
  have hloop := readEntriesLoop_ok t (epochAtStart t c0 c1 c2 c3) N d HW HR N 0 []
    [Event.writeEv 58 61 CMD_HISTORY_READ_INIT, Event.readEv 58 59,
     Event.nowEv, Event.readEv 58 64, Event.nowEv] (by omega) rfl rfl
  have hmain : read_historical_values t []
      = (.ok ((List.range' 0 N).map
            (fun k => HistoricalEntry.new (d k) (epochAtStart t c0 c1 c2 c3))),
         [Event.writeEv 58 61 CMD_HISTORY_READ_INIT, Event.readEv 58 59,
          Event.nowEv, Event.readEv 58 64, Event.nowEv]
           ++ (List.range' 0 N).flatMap
             (fun k => [.writeEv 58 61 (historical_entry_address k), .readEv 58 59])) := by
    unfold read_historical_values
    simp only [List.get?_eq_getElem?] at hb0 hb1
    simp only [epochAtStart] at hloop
    have hcw0 : countWrites ([] : Trace) 58 61 = 0 := rfl
    have hcr0 : countReads [Event.writeEv 58 61 CMD_HISTORY_READ_INIT] 58 59 = 0 := rfl
    have hcn0 : countNows
        [Event.writeEv 58 61 CMD_HISTORY_READ_INIT, Event.readEv 58 59] = 0 := rfl
    simp [hcw0, hcr0, hcn0, hres61, hres59, hw0, hr0, hb0, hb1, hN, hpos,
      hepoch, epochAtStart, hloop]
  refine ⟨hmain, ?_, ?_, ?_⟩
  · rw [hmain, countReads_append]
    have hpre : countReads
        [Event.writeEv 58 61 CMD_HISTORY_READ_INIT, Event.readEv 58 59,
         Event.nowEv, Event.readEv 58 64, Event.nowEv] 58 64 = 1 := rfl
    have hrest : ∀ l : List Nat, ∀ f : Nat → Nat,
        countReads ((List.range' 0 N).flatMap
          (fun k => [.writeEv 58 61 (historical_entry_address k),
            .readEv 58 59])) 58 64 = 0 := by
      intro _ _
      induction (List.range' 0 N) with
      | nil => rfl
      | cons a l ihl =>
        rw [List.flatMap_cons, countReads_append, ihl]
        rfl
    rw [hpre, hrest [] id]
  · rw [List.length_map, List.length_range']
  · intro h hmem
    rw [List.mem_map] at hmem
    obtain ⟨k, _, rfl⟩ := hmem
    rfl

/-- Entry payloads served by the C4 witness transport: entry k reads back
[k+1, 0, 0, 0] (padded offset bytes). -/
def dHist : Nat → List Byte := fun k => [byteOf (k + 1), 0, 0, 0]

/-- Read stream of the (58,59) characteristic for the C4 witness: the
length read returns [2, 0] (N = 2), subsequent reads return the entries. -/
def histReadSeq : Nat → Except BluerError (List Byte)
  | 0 => .ok [2, 0]
  | k + 1 => .ok (dHist k)

def tHist : Transport :=
  { serviceRes := fun _ => .ok ()
    charRes := fun _ _ => .ok ()
    readRes := fun _ c k =>
      if c = 64 then .ok [5, 0, 0, 0]
      else if c = 59 then histReadSeq k
      else .ok []
    writeRes := fun _ _ _ _ => .ok ()
    isConnectedRes := fun _ => .ok false
    connectRes := fun _ => .ok ()
    nowRes := fun _ => 100 }

/-- Closed instance of C4's theorem: two stored entries, boot offset 5,
via read_historical_values_protocol on tHist. -/
theorem read_historical_values_protocol_witness :
    read_historical_values tHist []
      = (.ok ((List.range' 0 2).map
            (fun k => HistoricalEntry.new (dHist k) (epochAtStart tHist 5 0 0 0))),
         [Event.writeEv 58 61 CMD_HISTORY_READ_INIT, Event.readEv 58 59,
          Event.nowEv, Event.readEv 58 64, Event.nowEv]
           ++ (List.range' 0 2).flatMap
             (fun k => [.writeEv 58 61 (historical_entry_address k), .readEv 58 59]))
    ∧ countReads (read_historical_values tHist []).2 58 64 = 1 := by
  have h := read_historical_values_protocol tHist 2 dHist [2, 0] [5, 0, 0, 0]
    2 0 5 0 0 0 rfl rfl rfl rfl rfl rfl rfl (by decide) (by decide)
    rfl rfl rfl rfl rfl (fun k _ => rfl) (fun k _ => rfl)
  exact ⟨h.1, h.2.1⟩

/-! ## C10: epoch-time arithmetic and the underflow precondition -/

theorem le32_lt_u32 (b0 b1 b2 b3 : Byte) : le32 b0 b1 b2 b3 < 2 ^ 32 := by
  have h0 := b0.isLt
  have h1 := b1.isLt
  have h2 := b2.isLt
  have h3 := b3.isLt
  show b0.val + 256 * b1.val + 65536 * b2.val + 16777216 * b3.val < 4294967296
  omega

theorem ratToU64_lt_u64 (q : ℚ) : ratToU64 q < 2 ^ 64 := by
  unfold ratToU64
  have h := min_le_right (Rat.floor q).toNat (2 ^ 64 - 1)
  omega

/-- The wrapping u64 subtraction agrees with the mathematical difference
exactly when it does not underflow. -/
theorem u64sub_exact_iff (a b : Nat) (ha : a < 2 ^ 64) (hb : b < 2 ^ 64) :
    b ≤ a ↔ (u64sub a b : ℤ) = (a : ℤ) - (b : ℤ) := by
  unfold u64sub
  omega

/-- C10: on the success path read_epoch_time returns the u64 subtraction of
the little-endian u32 boot offset from the u64 truncation of the midpoint
(t0 + t1) / 2 of the two wall-clock samples around the read, and that
subtraction equals the mathematical difference exactly when
offset ≤ truncated midpoint — when the device-reported boot offset exceeds
the midpoint, the u64 subtraction underflows (wraps). -/
theorem read_epoch_time_underflow_condition (t : Transport) (data : List Byte)
    (c0 c1 c2 c3 : Byte)
    (hres : characteristic t 58 64 = .ok ())
    (hr : t.readRes 58 64 0 = .ok data)
    (h0 : data.get? 0 = some c0) (h1 : data.get? 1 = some c1)
    (h2 : data.get? 2 = some c2) (h3 : data.get? 3 = some c3) :
    (read_epoch_time t []).1
      = .ok (u64sub (ratToU64 ((t.nowRes 1 + t.nowRes 0) / 2)) (le32 c0 c1 c2 c3))
    ∧ (le32 c0 c1 c2 c3 ≤ ratToU64 ((t.nowRes 1 + t.nowRes 0) / 2) ↔
        (u64sub (ratToU64 ((t.nowRes 1 + t.nowRes 0) / 2)) (le32 c0 c1 c2 c3) : ℤ)
          = (ratToU64 ((t.nowRes 1 + t.nowRes 0) / 2) : ℤ) - (le32 c0 c1 c2 c3 : ℤ)) := by
  constructor
  · have h := read_epoch_time_spec t [] data c0 c1 c2 c3 hres hr h0 h1 h2 h3
    rw [h]
    rfl
  · exact u64sub_exact_iff _ _ (ratToU64_lt_u64 _)
      (lt_trans (le32_lt_u32 c0 c1 c2 c3) (by norm_num))

/-- Transport for C10's witness: wall clock 3 then 4 (midpoint 3.5,
truncating to 3) and boot offset 5, an underflowing configuration. -/
def tEpoch : Transport :=
  { serviceRes := fun _ => .ok ()
    charRes := fun _ _ => .ok ()
    readRes := fun _ _ _ => .ok [5, 0, 0, 0]
    writeRes := fun _ _ _ _ => .ok ()
    isConnectedRes := fun _ => .ok false
    connectRes := fun _ => .ok ()
    nowRes := fun k => (k : ℚ) + 3 }

theorem read_epoch_time_underflow_condition_witness :
    (read_epoch_time tEpoch []).1
      = .ok (u64sub (ratToU64 ((tEpoch.nowRes 1 + tEpoch.nowRes 0) / 2))
          (le32 5 0 0 0))
    ∧ (le32 5 0 0 0 ≤ ratToU64 ((tEpoch.nowRes 1 + tEpoch.nowRes 0) / 2) ↔
        (u64sub (ratToU64 ((tEpoch.nowRes 1 + tEpoch.nowRes 0) / 2))
            (le32 5 0 0 0) : ℤ)
          = (ratToU64 ((tEpoch.nowRes 1 + tEpoch.nowRes 0) / 2) : ℤ)
            - (le32 5 0 0 0 : ℤ)) := by
  exact read_epoch_time_underflow_condition tEpoch [5, 0, 0, 0] 5 0 0 0
    rfl rfl rfl rfl rfl rfl
